import Mathlib

/-!
Verification of the WebRTC signaling subsystem of VirtualHire
(`Backend/signalingServer.js`, class `SignalingServer`).

The server keeps `this.rooms : Map<roomId, Set<{socketId, userId}>>` and
drives everything from socket.io event handlers:

* `join-room {roomId, userId}`: `socket.join(roomId)`; add a fresh
  `{socketId, userId}` object to the room's set (creating the room if
  absent); `socket.to(roomId).emit("user-joined", {userId, socketId})`.
* `offer|answer|ice-candidate {payload, roomId, targetSocketId}`:
  `socket.to(targetSocketId).emit(kind, {payload, senderSocketId})`
  (the `roomId` field is ignored; no lookup, no validation, no error
  event).
* `code-change {roomId, code, language}`:
  `socket.to(roomId).emit("code-change", {code, language})`.
* `disconnect`: iterate over `this.rooms`; in every room whose set holds
  an entry with this `socketId`, delete that (first found) entry, emit
  `user-left {userId}` into the room, and delete the room when its set
  became empty.

socket.io semantics embedded here: the adapter maps a room name to the
set of member socket ids; every socket is auto-joined to a room named by
its own id when it connects, and is removed from every adapter room when
it disconnects (before the `disconnect` handler runs); empty adapter
rooms are dropped.  `socket.to(x).emit(m)` delivers `m` to every socket
in adapter room `x` except the sender.  A missing field of an event
payload destructures to `undefined`, which is an ordinary map key /
room name; we model field values as `Option String`, `none` standing
for `undefined`.
-/

namespace VirtualHire

/-- A member record `{socketId, userId}` as stored in a room's set.
Each `join-room` allocates a fresh object, so the JS `Set` can hold
several structurally equal records. -/
structure Member where
  socketId : String
  userId : String
deriving DecidableEq, Repr

/-- A room key: `some r` for a proper string, `none` for JS `undefined`
(a missing `roomId`/`targetSocketId` field). -/
abbrev RKey := Option String

/-- Outbound events the server emits. -/
inductive OutMsg where
  | userJoined (userId socketId : String)
  | userLeft (userId : String)
  | offer (payload senderSocketId : String)
  | answer (payload senderSocketId : String)
  | iceCandidate (payload senderSocketId : String)
  | codeChange (code language : String)
deriving DecidableEq, Repr

/-- Inbound events, carrying the sender's socket id.  `connect` and
`disconnect` are the transport-level events; the rest are the payloads
of the five application handlers.  `roomId`/`target` fields are `RKey`
because the client may omit them. -/
inductive Ev where
  | connect (sid : String)
  | joinRoom (sid : String) (roomId : RKey) (userId : String)
  | offer (sid payload : String) (roomId target : RKey)
  | answer (sid payload : String) (roomId target : RKey)
  | iceCandidate (sid payload : String) (roomId target : RKey)
  | codeChange (sid : String) (roomId : RKey) (code language : String)
  | disconnect (sid : String)
deriving DecidableEq, Repr

/-- Server state: `rooms` is the application-level
`Map<roomId, Set<Member>>` (association list in insertion order, the
set as a list in insertion order); `adapter` is socket.io's room map
(room name to member socket ids). -/
structure SrvState where
  rooms : List (RKey × List Member)
  adapter : List (RKey × List String)
deriving DecidableEq, Repr

/-- The state of a freshly constructed `SignalingServer`. -/
def initState : SrvState := ⟨[], []⟩

/-- First-match association-list lookup (JS `Map.get`). -/
def lookupKey {β : Type} (l : List (RKey × β)) (k : RKey) : Option β :=
  match l with
  | [] => none
  | (k', v) :: t => if k' = k then some v else lookupKey t k

/-- The member socket ids of adapter room `k` (empty if the room does
not exist). -/
def adapterRoom (a : List (RKey × List String)) (k : RKey) : List String :=
  (lookupKey a k).getD []

/-- `socket.join(k)` at the adapter level: add `sid` to room `k`,
creating the room if absent; adapter rooms are sets, so a second join
is a no-op. -/
def adapterAdd (a : List (RKey × List String)) (k : RKey) (sid : String) :
    List (RKey × List String) :=
  match a with
  | [] => [(k, [sid])]
  | (k', sids) :: t =>
      if k' = k then (k', if sid ∈ sids then sids else sids ++ [sid]) :: t
      else (k', sids) :: adapterAdd t k sid

/-- On disconnect socket.io removes the socket from every adapter room
(including the room named by its own id) and drops rooms that became
empty. -/
def adapterRemoveSid (a : List (RKey × List String)) (sid : String) :
    List (RKey × List String) :=
  match a with
  | [] => []
  | (k, sids) :: t =>
      let sids' := sids.filter (fun x => decide (x ≠ sid))
      if sids' = [] then adapterRemoveSid t sid
      else (k, sids') :: adapterRemoveSid t sid

/-- The room's member list with the sender removed: the recipient set of
`socket.to(room)`. -/
def exceptSender (l : List String) (sender : String) : List String :=
  match l with
  | [] => []
  | x :: t => if x = sender then exceptSender t sender
              else x :: exceptSender t sender

/-- `socket.to(k).emit(msg)` issued by `sender`: deliver `msg` to every
socket of adapter room `k` except the sender. -/
def socketTo (a : List (RKey × List String)) (sender : String) (k : RKey)
    (msg : OutMsg) : List (String × OutMsg) :=
  (exceptSender (adapterRoom a k) sender).map (fun t => (t, msg))

/-- `this.rooms` update of the `join-room` handler:
`if (!rooms.has(k)) rooms.set(k, new Set()); rooms.get(k).add(m)` —
the added record is a fresh object, so it is always appended. -/
def dirAdd (rooms : List (RKey × List Member)) (k : RKey) (m : Member) :
    List (RKey × List Member) :=
  match rooms with
  | [] => [(k, [m])]
  | (k', ms) :: t =>
      if k' = k then (k', ms ++ [m]) :: t
      else (k', ms) :: dirAdd t k m

/-- `Array.from(users).find(u => u.socketId === sid)`. -/
def findSid (ms : List Member) (sid : String) : Option Member :=
  match ms with
  | [] => none
  | m :: t => if m.socketId = sid then some m else findSid t sid

/-- `users.delete(found)`: remove the first entry with this socket id
(the one `find` returned); no entry, no change. -/
def removeFirstSid (ms : List Member) (sid : String) : List Member :=
  match ms with
  | [] => []
  | m :: t => if m.socketId = sid then t else m :: removeFirstSid t sid

/-- `this.rooms` update of the `disconnect` handler: in every room
holding an entry for `sid`, delete that entry, and delete the room when
its set became empty. -/
def dirDisconnect (rooms : List (RKey × List Member)) (sid : String) :
    List (RKey × List Member) :=
  match rooms with
  | [] => []
  | (k, ms) :: t =>
      match findSid ms sid with
      | none => (k, ms) :: dirDisconnect t sid
      | some _ =>
          let ms' := removeFirstSid ms sid
          if ms' = [] then dirDisconnect t sid
          else (k, ms') :: dirDisconnect t sid

/-- The `user-left` broadcasts of the `disconnect` handler: for every
room holding an entry for `sid`, `socket.to(roomId).emit("user-left",
{userId})` with the found entry's `userId`.  The emits are computed
against the post-removal adapter state, since socket.io removes the
socket from its rooms before the handler runs (the sender is excluded
by `socket.to` either way). -/
def disconnectEmits (rooms : List (RKey × List Member))
    (a : List (RKey × List String)) (sid : String) :
    List (String × OutMsg) :=
  match rooms with
  | [] => []
  | (k, ms) :: t =>
      (match findSid ms sid with
       | none => []
       | some m => socketTo a sid k (.userLeft m.userId)) ++
      disconnectEmits t a sid

/-- One event handler dispatch: the next state and the list of
(recipient socket id, message) deliveries it emits. -/
def step (s : SrvState) : Ev → SrvState × List (String × OutMsg)
  | .connect sid =>
      ({ s with adapter := adapterAdd s.adapter (some sid) sid }, [])
  | .joinRoom sid r uid =>
      let a' := adapterAdd s.adapter r sid
      (⟨dirAdd s.rooms r ⟨sid, uid⟩, a'⟩,
       socketTo a' sid r (.userJoined uid sid))
  | .offer sid payload _r target =>
      (s, socketTo s.adapter sid target (.offer payload sid))
  | .answer sid payload _r target =>
      (s, socketTo s.adapter sid target (.answer payload sid))
  | .iceCandidate sid payload _r target =>
      (s, socketTo s.adapter sid target (.iceCandidate payload sid))
  | .codeChange sid r code lang =>
      (s, socketTo s.adapter sid r (.codeChange code lang))
  | .disconnect sid =>
      let a' := adapterRemoveSid s.adapter sid
      (⟨dirDisconnect s.rooms sid, a'⟩,
       disconnectEmits s.rooms a' sid)

/-- Run a sequence of events from a state, keeping only the final
state. -/
def runState (s : SrvState) : List Ev → SrvState
  | [] => s
  | e :: t => runState (step s e).1 t

/-- The member records of room `k` in the application-level directory. -/
def dirMembers (rooms : List (RKey × List Member)) (k : RKey) :
    List Member :=
  (lookupKey rooms k).getD []

/-- Number of deliveries of exactly `x` (recipient and message) in an
emission list. -/
def countRecv (out : List (String × OutMsg)) (x : String × OutMsg) : Nat :=
  match out with
  | [] => 0
  | p :: t => (if p = x then 1 else 0) + countRecv t x

/-- Occurrences of a socket id in a recipient list. -/
def countStr (l : List String) (x : String) : Nat :=
  match l with
  | [] => 0
  | y :: t => (if y = x then 1 else 0) + countStr t x

/-! ### Helper lemmas -/

theorem mem_exceptSender {l : List String} {sender x : String}
    (h : x ∈ exceptSender l sender) : x ∈ l ∧ x ≠ sender := by
  induction l with
  | nil => simp [exceptSender] at h
  | cons y t ih =>
      by_cases hy : y = sender
      · simp [exceptSender, hy] at h
        rcases ih h with ⟨h1, h2⟩
        exact ⟨List.mem_cons_of_mem _ h1, h2⟩
      · simp [exceptSender, hy] at h
        rcases h with h | h
        · subst h; exact ⟨List.mem_cons_self _ _, hy⟩
        · rcases ih h with ⟨h1, h2⟩
          exact ⟨List.mem_cons_of_mem _ h1, h2⟩

theorem countStr_exceptSender (l : List String) {sender x : String}
    (hx : x ≠ sender) : countStr (exceptSender l sender) x = countStr l x := by
  induction l with
  | nil => rfl
  | cons y t ih =>
      by_cases hy : y = sender
      · have hsx : ¬ sender = x := fun h => hx h.symm
        simp [exceptSender, hy, countStr, hsx, ih]
      · simp [exceptSender, hy, countStr, ih]

theorem countStr_append (l l' : List String) (x : String) :
    countStr (l ++ l') x = countStr l x + countStr l' x := by
  induction l with
  | nil => simp [countStr]
  | cons y t ih => simp [countStr, ih]; omega

theorem countStr_eq_zero_of_not_mem {l : List String} {x : String}
    (h : x ∉ l) : countStr l x = 0 := by
  induction l with
  | nil => rfl
  | cons y t ih =>
      simp at h
      have : ¬ y = x := fun hy => h.1 hy.symm
      simp [countStr, this, ih h.2]

theorem countStr_of_nodup_mem {l : List String} {x : String}
    (hnd : l.Nodup) (hx : x ∈ l) : countStr l x = 1 := by
  induction l with
  | nil => simp at hx
  | cons y t ih =>
      rcases List.nodup_cons.mp hnd with ⟨hy, hnd'⟩
      rcases List.mem_cons.mp hx with h | h
      · subst h
        simp [countStr, countStr_eq_zero_of_not_mem hy]
      · have hne : ¬ y = x := by
          intro hxy; subst hxy; exact hy h
        simp [countStr, hne, ih hnd' h]

theorem countRecv_map (l : List String) (msg : OutMsg) (x : String) :
    countRecv (l.map (fun t => (t, msg))) (x, msg) = countStr l x := by
  induction l with
  | nil => rfl
  | cons y t ih =>
      by_cases hy : y = x
      · simp [countRecv, countStr, hy, ih]
      · have : ¬ (y, msg) = (x, msg) := by
          simp [Prod.ext_iff, hy]
        simp [countRecv, countStr, hy, this, ih]

theorem adapterRoom_adapterAdd_self (a : List (RKey × List String))
    (k : RKey) (sid : String) :
    adapterRoom (adapterAdd a k sid) k =
      if sid ∈ adapterRoom a k then adapterRoom a k
      else adapterRoom a k ++ [sid] := by
  induction a with
  | nil => simp [adapterAdd, adapterRoom, lookupKey]
  | cons p t ih =>
      rcases p with ⟨k', sids⟩
      by_cases hk : k' = k
      · simp [adapterAdd, adapterRoom, lookupKey, hk]
      · simp [adapterAdd, adapterRoom, lookupKey, hk] at ih ⊢
        exact ih

theorem exceptSender_append_sender (l : List String) (sender : String) :
    exceptSender (l ++ [sender]) sender = exceptSender l sender := by
  induction l with
  | nil => simp [exceptSender]
  | cons y t ih =>
      by_cases hy : y = sender <;> simp [exceptSender, hy, ih]

/-! ### Concrete scenario states -/

/-- Sockets A and B connect and both join room `"r1"`. -/
def trAB : List Ev :=
  [.connect "A", .connect "B",
   .joinRoom "A" (some "r1") "uA", .joinRoom "B" (some "r1") "uB"]

/-- The server state after `trAB`. -/
def stateAB : SrvState := runState initState trAB

/-- A connects and joins `"r1"`; then B connects (but has not joined). -/
def trJoinA : List Ev :=
  [.connect "A", .joinRoom "A" (some "r1") "uA", .connect "B"]

/-- The server state after `trJoinA`. -/
def stateJoinA : SrvState := runState initState trJoinA

/-- A and B connect but join no room at all. -/
def stateConnOnly : SrvState := runState initState [.connect "A", .connect "B"]

/-- A connects, joins `"r1"` twice, then disconnects. -/
def trDupJoin : List Ev :=
  [.connect "A", .joinRoom "A" (some "r1") "uA",
   .joinRoom "A" (some "r1") "uA", .disconnect "A"]

/-! ### Claim theorems -/

/-- Claim C1 counterexample: the claim is false on the code.  In the
concrete scenario where A is already a member of room `"r1"` and B
joins, B's own join delivers nothing whatsoever to B — in particular no
member list / snapshot is ever sent to the joiner (the server has no
such outbound event at all). -/
theorem joinSendsNoSnapshotToJoiner :
    ((step stateJoinA (.joinRoom "B" (some "r1") "uB")).2.filter
        (fun p => decide (p.1 = "B"))) = [] := by decide

/-- Claim C1 (amended): a joining connection is sent nothing on its own
join; the only messages the join handler emits are `user-joined`
notifications (carrying the joiner's userId and socketId) addressed to
connections other than the joiner. -/
theorem joinEmitsOnlyUserJoinedToOthers (s : SrvState) (sid uid : String)
    (rk : RKey) (p : String × OutMsg)
    (hp : p ∈ (step s (.joinRoom sid rk uid)).2) :
    p.1 ≠ sid ∧ p.2 = OutMsg.userJoined uid sid := by
  simp only [step, socketTo] at hp
  rcases List.mem_map.mp hp with ⟨t, ht, rfl⟩
  exact ⟨(mem_exceptSender ht).2, rfl⟩

/-- Witness for the amended Claim C1 theorem at a concrete input. -/
theorem joinEmitsOnlyUserJoinedToOthersWitness :
    ("A", OutMsg.userJoined "uB" "B") ∈
      (step stateJoinA (.joinRoom "B" (some "r1") "uB")).2 ∧
    (("A", OutMsg.userJoined "uB" "B").1 ≠ "B" ∧
     ("A", OutMsg.userJoined "uB" "B").2 = OutMsg.userJoined "uB" "B") :=
  ⟨by decide,
   joinEmitsOnlyUserJoinedToOthers stateJoinA "B" "uB" (some "r1")
     ("A", OutMsg.userJoined "uB" "B") (by decide)⟩

/-- Claim C2 counterexample: the claim is false on the code.  A
malformed `offer` (missing `targetSocketId`) from A in the two-member
state emits nothing at all — in particular no error event is ever sent
back to the sender. -/
theorem malformedOfferNoErrorEvent :
    (step stateAB (.offer "A" "sdp" (some "r1") none)).2 = [] := by decide

/-- Claim C2 (amended): a malformed directed event (offer, answer,
ice-candidate missing `targetSocketId`) or a malformed `code-change`
(missing `roomId`) is silently dropped: no error event is sent to the
sender, nothing is delivered to anyone (as long as no room keyed by the
undefined value exists), and the server state — in particular the room
directory — is unchanged. -/
theorem malformedEventsSilentlyDropped (s : SrvState)
    (sid payload code lang : String) (rk : RKey)
    (h : adapterRoom s.adapter none = []) :
    step s (.offer sid payload rk none) = (s, []) ∧
    step s (.answer sid payload rk none) = (s, []) ∧
    step s (.iceCandidate sid payload rk none) = (s, []) ∧
    step s (.codeChange sid none code lang) = (s, []) := by
  refine ⟨?_, ?_, ?_, ?_⟩ <;> simp [step, socketTo, h, exceptSender]

/-- Witness for the amended Claim C2 theorem at a concrete input. -/
theorem malformedEventsSilentlyDroppedWitness :
    adapterRoom stateAB.adapter none = [] ∧
    (step stateAB (.offer "A" "sdp" (some "r1") none) = (stateAB, []) ∧
     step stateAB (.answer "A" "sdp" (some "r1") none) = (stateAB, []) ∧
     step stateAB (.iceCandidate "A" "sdp" (some "r1") none) = (stateAB, []) ∧
     step stateAB (.codeChange "A" none "x" "js") = (stateAB, [])) :=
  ⟨by decide,
   malformedEventsSilentlyDropped stateAB "A" "sdp" "x" "js" (some "r1")
     (by decide)⟩

/-- Claim C3 counterexample: the claim is false on the code.  A and B
are connected but members of no room (the directory is empty), yet an
offer from A naming B as target is relayed to B — no membership lookup
or validation happens. -/
theorem nonMemberOfferRelayed :
    stateConnOnly.rooms = [] ∧
    (step stateConnOnly (.offer "A" "sdp" (some "r1") (some "B"))).2
      = [("B", OutMsg.offer "sdp" "A")] := by decide

/-- Claim C3 (amended): the relay performs no Room Directory lookup and
no membership validation for directed messages; an offer, answer or
ice-candidate is relayed to the target socket unconditionally, for every
server state in which the target's socket-id room exists — regardless of
whether sender or target belong to any room. -/
theorem directedRelayUnconditional (s : SrvState)
    (sender target payload : String) (rk : RKey)
    (h1 : adapterRoom s.adapter (some target) = [target])
    (h2 : target ≠ sender) :
    (step s (.offer sender payload rk (some target))).2
      = [(target, OutMsg.offer payload sender)] ∧
    (step s (.answer sender payload rk (some target))).2
      = [(target, OutMsg.answer payload sender)] ∧
    (step s (.iceCandidate sender payload rk (some target))).2
      = [(target, OutMsg.iceCandidate payload sender)] := by
  refine ⟨?_, ?_, ?_⟩ <;> simp [step, socketTo, h1, exceptSender, h2]

/-- Witness for the amended Claim C3 theorem at a concrete input (A and
B are members of no room, yet the relay delivers). -/
theorem directedRelayUnconditionalWitness :
    adapterRoom stateConnOnly.adapter (some "B") = ["B"] ∧
    ("B" : String) ≠ "A" ∧
    ((step stateConnOnly (.offer "A" "p" (some "r1") (some "B"))).2
       = [("B", OutMsg.offer "p" "A")] ∧
     (step stateConnOnly (.answer "A" "p" (some "r1") (some "B"))).2
       = [("B", OutMsg.answer "p" "A")] ∧
     (step stateConnOnly (.iceCandidate "A" "p" (some "r1") (some "B"))).2
       = [("B", OutMsg.iceCandidate "p" "A")]) :=
  ⟨by decide, by decide,
   directedRelayUnconditional stateConnOnly "A" "B" "p" (some "r1")
     (by decide) (by decide)⟩

/-- Claim C4 counterexample: the claim is false on the code.  After A
and B join `"r1"` and A disconnects, room `"r1"` still exists in the
directory (B is still a member); it is not deleted as the claim
states. -/
theorem roomPersistsAfterOneDisconnect :
    lookupKey (step stateAB (.disconnect "A")).1.rooms (some "r1") ≠ none := by
  decide

/-- Claim C4 (amended): in the two-member scenario where A and B have
joined room `"r1"` and A disconnects, B receives exactly one `user-left`
event carrying A's userId, and room `"r1"` still exists in the
directory, containing exactly B (a room is deleted only when its last
member departs). -/
theorem disconnectScenarioAB :
    (step stateAB (.disconnect "A")).2 = [("B", OutMsg.userLeft "uA")] ∧
    lookupKey (step stateAB (.disconnect "A")).1.rooms (some "r1")
      = some [⟨"B", "uB"⟩] := by decide

/-- Claim C5 (code bug): evaluation at the failing input.  A single
connection A joins room `"r1"` twice (each join appends a fresh member
record to the room's set) and then disconnects; the disconnect handler
deletes only the first matching record, so the directory forever
retains a phantom member for A although A's transport is gone (its
adapter state is empty), and the room is never garbage-collected. -/
theorem phantomMemberAfterDuplicateJoin :
    lookupKey (runState initState trDupJoin).rooms (some "r1")
      = some [⟨"A", "uA"⟩] ∧
    (runState initState trDupJoin).adapter = [] := by decide

/-- Claim C6: for every join into a room, each member present at the
moment of the join (a member record of the directory whose socket id is
not the joiner's) receives exactly one `user-joined` event carrying the
new member's userId and socket (connection) id, and the joining
connection itself receives nothing.  The hypotheses record that the
socket.io room mirrors the directory membership and holds no duplicate
socket ids, which is how every state reached by distinct-connection
join/disconnect traffic looks. -/
theorem joinNotifiesEachPriorMemberOnce (s : SrvState)
    (sid uid r : String) (m : Member)
    (hc : adapterRoom s.adapter (some r)
            = (dirMembers s.rooms (some r)).map Member.socketId)
    (hnd : (adapterRoom s.adapter (some r)).Nodup)
    (hm : m ∈ dirMembers s.rooms (some r))
    (hne : m.socketId ≠ sid) :
    countRecv (step s (.joinRoom sid (some r) uid)).2
        (m.socketId, OutMsg.userJoined uid sid) = 1 ∧
    ∀ p ∈ (step s (.joinRoom sid (some r) uid)).2, p.1 ≠ sid := by
  have hmem : m.socketId ∈ adapterRoom s.adapter (some r) := by
    rw [hc]; exact List.mem_map_of_mem _ hm
  constructor
  · show countRecv (socketTo (adapterAdd s.adapter (some r) sid) sid (some r)
        (OutMsg.userJoined uid sid)) (m.socketId, OutMsg.userJoined uid sid) = 1
    unfold socketTo
    rw [countRecv_map, adapterRoom_adapterAdd_self]
    by_cases hin : sid ∈ adapterRoom s.adapter (some r)
    · rw [if_pos hin, countStr_exceptSender _ hne]
      exact countStr_of_nodup_mem hnd hmem
    · rw [if_neg hin, exceptSender_append_sender,
        countStr_exceptSender _ hne]
      exact countStr_of_nodup_mem hnd hmem
  · intro p hp
    simp only [step, socketTo] at hp
    rcases List.mem_map.mp hp with ⟨t, ht, rfl⟩
    exact (mem_exceptSender ht).2

/-- Witness for the Claim C6 theorem at a concrete input: C joins
`"r1"` while A and B are members; A gets exactly one `user-joined` and C
gets nothing. -/
theorem joinNotifiesEachPriorMemberOnceWitness :
    adapterRoom stateAB.adapter (some "r1")
      = (dirMembers stateAB.rooms (some "r1")).map Member.socketId ∧
    (adapterRoom stateAB.adapter (some "r1")).Nodup ∧
    (⟨"A", "uA"⟩ : Member) ∈ dirMembers stateAB.rooms (some "r1") ∧
    (Member.mk "A" "uA").socketId ≠ "C" ∧
    (countRecv (step stateAB (.joinRoom "C" (some "r1") "uC")).2
        ((Member.mk "A" "uA").socketId, OutMsg.userJoined "uC" "C") = 1 ∧
     ∀ p ∈ (step stateAB (.joinRoom "C" (some "r1") "uC")).2, p.1 ≠ "C") :=
  ⟨by decide, by decide, by decide, by decide,
   joinNotifiesEachPriorMemberOnce stateAB "C" "uC" "r1" ⟨"A", "uA"⟩
     (by decide) (by decide) (by decide) (by decide)⟩

/-- Claim C7: a directed message (offer, answer, ice-candidate) is
delivered only to the connection named by `targetSocketId` — every
delivery the handler makes goes to the target and carries the payload
verbatim together with the sender's socket (connection) id.  The
hypothesis says that `targetSocketId` names a connection: its socket-id
adapter room contains nothing but that socket. -/
theorem directedDeliveredOnlyToTarget (s : SrvState)
    (sender target payload : String) (rk : RKey)
    (h : ∀ x ∈ adapterRoom s.adapter (some target), x = target) :
    (∀ p ∈ (step s (.offer sender payload rk (some target))).2,
        p.1 = target ∧ p.2 = OutMsg.offer payload sender) ∧
    (∀ p ∈ (step s (.answer sender payload rk (some target))).2,
        p.1 = target ∧ p.2 = OutMsg.answer payload sender) ∧
    (∀ p ∈ (step s (.iceCandidate sender payload rk (some target))).2,
        p.1 = target ∧ p.2 = OutMsg.iceCandidate payload sender) := by
  refine ⟨?_, ?_, ?_⟩ <;>
  · intro p hp
    simp only [step, socketTo] at hp
    rcases List.mem_map.mp hp with ⟨t, ht, rfl⟩
    exact ⟨h t (mem_exceptSender ht).1, rfl⟩

/-- Witness for the Claim C7 theorem at a concrete input. -/
theorem directedDeliveredOnlyToTargetWitness :
    (∀ x ∈ adapterRoom stateAB.adapter (some "B"), x = "B") ∧
    ((∀ p ∈ (step stateAB (.offer "A" "p" (some "r1") (some "B"))).2,
        p.1 = "B" ∧ p.2 = OutMsg.offer "p" "A") ∧
     (∀ p ∈ (step stateAB (.answer "A" "p" (some "r1") (some "B"))).2,
        p.1 = "B" ∧ p.2 = OutMsg.answer "p" "A") ∧
     (∀ p ∈ (step stateAB (.iceCandidate "A" "p" (some "r1") (some "B"))).2,
        p.1 = "B" ∧ p.2 = OutMsg.iceCandidate "p" "A")) :=
  ⟨by decide,
   directedDeliveredOnlyToTarget stateAB "A" "B" "p" (some "r1") (by decide)⟩

/-- Claim C8: a `code-change` from a room member is delivered, with its
code and language fields, exactly once to every other member of the
room, and never back to the sender.  Hypotheses as in the join claim:
the socket.io room mirrors the directory membership without duplicate
socket ids. -/
theorem codeChangeBroadcastToOthersOnce (s : SrvState)
    (sender r code lang : String) (m : Member)
    (hc : adapterRoom s.adapter (some r)
            = (dirMembers s.rooms (some r)).map Member.socketId)
    (hnd : (adapterRoom s.adapter (some r)).Nodup)
    (hm : m ∈ dirMembers s.rooms (some r))
    (hne : m.socketId ≠ sender) :
    countRecv (step s (.codeChange sender (some r) code lang)).2
        (m.socketId, OutMsg.codeChange code lang) = 1 ∧
    ∀ p ∈ (step s (.codeChange sender (some r) code lang)).2,
        p.1 ≠ sender := by
  have hmem : m.socketId ∈ adapterRoom s.adapter (some r) := by
    rw [hc]; exact List.mem_map_of_mem _ hm
  constructor
  · show countRecv (socketTo s.adapter sender (some r)
        (OutMsg.codeChange code lang)) (m.socketId, OutMsg.codeChange code lang) = 1
    unfold socketTo
    rw [countRecv_map, countStr_exceptSender _ hne]
    exact countStr_of_nodup_mem hnd hmem
  · intro p hp
    simp only [step, socketTo] at hp
    rcases List.mem_map.mp hp with ⟨t, ht, rfl⟩
    exact (mem_exceptSender ht).2

/-- Witness for the Claim C8 theorem at a concrete input. -/
theorem codeChangeBroadcastToOthersOnceWitness :
    adapterRoom stateAB.adapter (some "r1")
      = (dirMembers stateAB.rooms (some "r1")).map Member.socketId ∧
    (adapterRoom stateAB.adapter (some "r1")).Nodup ∧
    (⟨"B", "uB"⟩ : Member) ∈ dirMembers stateAB.rooms (some "r1") ∧
    (Member.mk "B" "uB").socketId ≠ "A" ∧
    (countRecv (step stateAB (.codeChange "A" (some "r1") "x" "js")).2
        ((Member.mk "B" "uB").socketId, OutMsg.codeChange "x" "js") = 1 ∧
     ∀ p ∈ (step stateAB (.codeChange "A" (some "r1") "x" "js")).2,
        p.1 ≠ "A") :=
  ⟨by decide, by decide, by decide, by decide,
   codeChangeBroadcastToOthersOnce stateAB "A" "r1" "x" "js" ⟨"B", "uB"⟩
     (by decide) (by decide) (by decide) (by decide)⟩

/-- No room of the directory holds an entry for `sid`, so the
disconnect scan changes nothing. -/
theorem dirDisconnect_eq_of_absent {rooms : List (RKey × List Member)}
    {sid : String} (h : ∀ p ∈ rooms, findSid p.2 sid = none) :
    dirDisconnect rooms sid = rooms := by
  induction rooms with
  | nil => rfl
  | cons q t ih =>
      rcases q with ⟨k, ms⟩
      have hq := h (k, ms) (List.mem_cons_self _ _)
      simp only [dirDisconnect, hq]
      exact congrArg _ (ih fun p hp => h p (List.mem_cons_of_mem _ hp))

/-- No room of the directory holds an entry for `sid`, so the
disconnect scan broadcasts nothing. -/
theorem disconnectEmits_eq_nil_of_absent {rooms : List (RKey × List Member)}
    {a : List (RKey × List String)} {sid : String}
    (h : ∀ p ∈ rooms, findSid p.2 sid = none) :
    disconnectEmits rooms a sid = [] := by
  induction rooms with
  | nil => rfl
  | cons q t ih =>
      rcases q with ⟨k, ms⟩
      have hq := h (k, ms) (List.mem_cons_self _ _)
      simp only [disconnectEmits, hq, List.nil_append]
      exact ih fun p hp => h p (List.mem_cons_of_mem _ hp)

/-- Claim C9: disconnecting a connection that is a member of zero rooms
leaves the room directory unchanged and emits no broadcast (no
`user-left` nor anything else). -/
theorem disconnectZeroRoomsNoop (s : SrvState) (sid : String)
    (h : ∀ p ∈ s.rooms, findSid p.2 sid = none) :
    (step s (.disconnect sid)).1.rooms = s.rooms ∧
    (step s (.disconnect sid)).2 = [] := by
  constructor
  · simpa [step] using dirDisconnect_eq_of_absent h
  · simpa [step] using disconnectEmits_eq_nil_of_absent h

/-- Witness for the Claim C9 theorem at a concrete input: C connected
but joined no room; disconnecting C is a directory no-op with no
broadcast. -/
theorem disconnectZeroRoomsNoopWitness :
    (∀ p ∈ stateAB.rooms, findSid p.2 "C" = none) ∧
    ((step stateAB (.disconnect "C")).1.rooms = stateAB.rooms ∧
     (step stateAB (.disconnect "C")).2 = []) :=
  ⟨by decide, disconnectZeroRoomsNoop stateAB "C" (by decide)⟩

/-- Claim C10: handling an offer, answer, ice-candidate or code-change
event never modifies the server state — the room directory (and the
socket.io adapter) are identical before and after, for every state and
every payload, including malformed ones. -/
theorem relayAndCodeChangePreserveRooms (s : SrvState)
    (sid payload code lang : String) (rk tk : RKey) :
    (step s (.offer sid payload rk tk)).1 = s ∧
    (step s (.answer sid payload rk tk)).1 = s ∧
    (step s (.iceCandidate sid payload rk tk)).1 = s ∧
    (step s (.codeChange sid rk code lang)).1 = s :=
  ⟨rfl, rfl, rfl, rfl⟩

end VirtualHire
